import Mathlib

/-!
Verification of the unlimited-ammo watch-and-build engine and log display.

The definitions below are a shallow embedding of the Rust source:
  - src/error.rs        : the Error enum
  - src/watcher.rs      : change detection (Watcher::start's diff loop),
                          the snapshot walk (Watcher::walk_codebase),
                          the build lifecycle (Watcher::try_build_codebase),
                          log formatting (Watcher::format_log_msg, Watcher::log),
                          and the builder (WatcherBuilder::build)
  - src/interface/display.rs : Display state (add_log, next_row, prev_row)
                          and the grapheme wrapping loop of Display::render.
-/

namespace UnlimitedAmmo

/-- The Error enum of src/error.rs (payloads dropped; only the variant matters). -/
inductive Error where
  | StdIo
  | WatchIntervalNotSet
  | DisplayNotSet
  | BuildFailed
  | FailedParsingOsString
deriving DecidableEq, Repr

/-! ## Change detection (Watcher::start, the per-tick diff loop) -/

/-- Lookup in the previous snapshot, modelling HashMap::get on the
targets map (a snapshot maps a path to its modified timestamp). -/
def lookupTS : List (String × Nat) → String → Option Nat
  | [], _ => none
  | (k, v) :: rest, key => if k = key then some v else lookupTS rest key

/-- The per-target change test of Watcher::start line 53-57:
self.targets.get(target).is_some_and(|t| t != target_modified_ts).
Note is_some_and is false when the path is absent from the previous snapshot. -/
def detectsChange (prev : List (String × Nat)) (target : String) (ts : Nat) : Bool :=
  match lookupTS prev target with
  | some old => old ≠ ts
  | none => false

/-- The labelled targets_loop of Watcher::start lines 52-66, returning the
list of targets for which try_build_codebase was invoked this tick, in order.
buildOk tells whether the invocation for a given target returned Ok:
on Ok the loop breaks, on Err it continues to the next target. -/
def scanTargetsLoop (prev : List (String × Nat)) (buildOk : String → Bool) :
    List (String × Nat) → List String
  | [] => []
  | (t, ts) :: rest =>
    if detectsChange prev t ts then
      if buildOk t then [t]
      else t :: scanTargetsLoop prev buildOk rest
    else scanTargetsLoop prev buildOk rest

/-! ## Snapshot walk (Watcher::walk_codebase / try_get_targets) -/

mutual
/-- A filesystem node as observed by walk_codebase.  A file carries the
result of fetching its modified timestamp; a directory carries it too
(the else branch can stat a directory whose path is not valid unicode),
plus either its listing or the fact that read_dir fails on it. -/
inductive FsNode where
  | file (meta : Except Unit Nat)
  | dirErr (meta : Except Unit Nat)
  | dirOk (meta : Except Unit Nat) (entries : FsEntries)

/-- The sequence a read_dir iterator yields: each element is either an Err
entry (the iterator failed to produce the entry) or an entry with the result
of decoding its file name, its path as text when valid unicode, and its node. -/
inductive FsEntries where
  | nil
  | consErr (rest : FsEntries)
  | consOk (name : Except Unit String) (pathStr : Option String) (node : FsNode)
      (rest : FsEntries)
end

/-- Whether a node is a directory on disk (PathBuf::is_dir). -/
def FsNode.isDir : FsNode → Bool
  | .file _ => false
  | .dirErr _ => true
  | .dirOk _ _ => true

/-- Watcher::try_get_modified_ts: the stat result recorded on the node. -/
def FsNode.modifiedTS : FsNode → Except Unit Nat
  | .file m => m
  | .dirErr m => m
  | .dirOk m _ => m

/-- Watcher::is_valid_target: the name is not in the ignore list. -/
def is_valid_target (ignore_list : List String) (filename : String) : Bool :=
  ¬ ignore_list.contains filename

/-- HashMap::insert on the targets map: replaces an existing key. -/
def insertTS : List (String × Nat) → String → Nat → List (String × Nat)
  | [], k, v => [(k, v)]
  | (k', v') :: rest, k, v =>
    if k' = k then (k, v) :: rest else (k', v') :: insertTS rest k v

mutual
/-- Watcher::walk_codebase on a directory node (walkNode) and on the tail of
a read_dir listing (walkEntries), threading the accumulated targets map.
read_dir failure, filename decode failure and metadata failure abort with an
error; an Err entry from the iterator is logged and skipped (the if-let Ok
at line 93); a path that is not valid unicode is statted but not inserted. -/
def walkNode (ig : List String) : FsNode → List (String × Nat) →
    Except Error (List (String × Nat))
  | .file _, _ => .error .StdIo
  | .dirErr _, _ => .error .StdIo
  | .dirOk _ es, tg => walkEntries ig es tg

def walkEntries (ig : List String) : FsEntries → List (String × Nat) →
    Except Error (List (String × Nat))
  | .nil, tg => .ok tg
  | .consErr rest, tg => walkEntries ig rest tg
  | .consOk name pathStr node rest, tg =>
    match name with
    | .error _ => .error .FailedParsingOsString
    | .ok filename =>
      if is_valid_target ig filename then
        if node.isDir ∧ pathStr.isSome then
          match walkNode ig node tg with
          | .error e => .error e
          | .ok tg2 => walkEntries ig rest tg2
        else
          match node.modifiedTS with
          | .error _ => .error .StdIo
          | .ok ts =>
            match pathStr with
            | some p => walkEntries ig rest (insertTS tg p ts)
            | none => walkEntries ig rest tg
      else walkEntries ig rest tg
end

mutual
/-- The failures that abort a walk: read_dir failure on the node itself or,
recursively, a name-decode or metadata failure on a non-skipped entry.
Err entries from the iterator are not counted (they are skipped). -/
def nodeFatal (ig : List String) : FsNode → Bool
  | .file _ => true
  | .dirErr _ => true
  | .dirOk _ es => entriesFatal ig es

def entriesFatal (ig : List String) : FsEntries → Bool
  | .nil => false
  | .consErr rest => entriesFatal ig rest
  | .consOk name pathStr node rest =>
    match name with
    | .error _ => true
    | .ok filename =>
      if is_valid_target ig filename then
        if node.isDir ∧ pathStr.isSome then
          nodeFatal ig node || entriesFatal ig rest
        else
          match node.modifiedTS with
          | .error _ => true
          | .ok _ => entriesFatal ig rest
      else entriesFatal ig rest
end

/-! ## Build lifecycle (Watcher::try_build_codebase) -/

/-- The environment a try_build_codebase call runs in: whether killing a
given pid succeeds, whether the web build spawns and waits successfully,
and the pid of the rust build process when its spawn succeeds. -/
structure BuildEnv where
  killOk : Nat → Bool
  webSpawnOk : Bool
  webWaitOk : Bool
  rustSpawn : Option Nat

/-- The outcome of a try_build_codebase call: its return value, the process
recorded as current afterwards, and whether a kill of a previously recorded
process was attempted. -/
structure BuildOutcome where
  result : Except Error Unit
  finalProcess : Option Nat
  killAttempted : Bool
deriving Repr

/-- Lines 188-253: spawn the rust build; on success record it as the
current process and return Ok, on spawn failure return BuildFailed
leaving the recorded process as it stands. -/
def rustStage (env : BuildEnv) (st : Option Nat) (ka : Bool) : BuildOutcome :=
  match env.rustSpawn with
  | some pid => { result := .ok (), finalProcess := some pid, killAttempted := ka }
  | none => { result := .error .BuildFailed, finalProcess := st, killAttempted := ka }

/-- Lines 156-185: when need_to_build_web, run the web build to completion
(spawn failure is BuildFailed, wait failure is an io error), then fall
through to the rust build stage. -/
def afterKillStage (env : BuildEnv) (need_to_build_web : Bool) (st : Option Nat)
    (ka : Bool) : BuildOutcome :=
  if need_to_build_web then
    if env.webSpawnOk then
      if env.webWaitOk then rustStage env st ka
      else { result := .error .StdIo, finalProcess := st, killAttempted := ka }
    else { result := .error .BuildFailed, finalProcess := st, killAttempted := ka }
  else rustStage env st ka

/-- Watcher::try_build_codebase lines 140-254: if a previous build process
is recorded, attempt to kill it; kill failure propagates the io error and
leaves the stale handle recorded; on success the handle is cleared and the
build proceeds. -/
def try_build_codebase (env : BuildEnv) (need_to_build_web : Bool)
    (st : Option Nat) : BuildOutcome :=
  match st with
  | some pid =>
    if env.killOk pid then afterKillStage env need_to_build_web none true
    else { result := .error .StdIo, finalProcess := some pid, killAttempted := true }
  | none => afterKillStage env need_to_build_web none false

/-! ## Grapheme wrapping (Display::render lines 124-160) -/

/-- One grapheme cluster together with its rendered width. -/
structure Grapheme where
  content : String
  width : Nat
deriving DecidableEq, Repr

/-- The rendered width of a visual row: the sum of its graphemes' widths. -/
def rowWidth (r : List Grapheme) : Nat := (r.map Grapheme.width).sum

/-- The inner loop of Display::render: walk the graphemes of a line keeping
the current line and its width; when adding the next grapheme would exceed
the available width and the current line is non-empty, flush the current
line as a visual row and start a new one with that grapheme; at the end
flush the non-empty remainder. -/
def wrapAux (w : Nat) : List Grapheme → Nat → List Grapheme → List (List Grapheme)
  | cur, _, [] => if cur.isEmpty then [] else [cur]
  | cur, curW, g :: gs =>
    if w < curW + g.width ∧ 0 < curW then
      cur :: wrapAux w [g] g.width gs
    else
      wrapAux w (cur ++ [g]) (curW + g.width) gs

/-- Wrap one line of graphemes into visual rows of available width w. -/
def wrapLine (w : Nat) (gs : List Grapheme) : List (List Grapheme) :=
  wrapAux w [] 0 gs

/-! ## Display state (src/interface/display.rs) -/

/-- The Display fields the claims are about. -/
structure DisplayS where
  logs : List String
  selected_visual_idx : Nat
  n_visual_rows : Nat
  jump_to_latest : Bool
deriving DecidableEq, Repr

/-- Display::add_log: push the line and set jump_to_latest. -/
def add_log (d : DisplayS) (log : String) : DisplayS :=
  { d with logs := d.logs ++ [log], jump_to_latest := true }

/-- Display::next_row: no-op on zero rows, else advance modulo the row count. -/
def next_row (d : DisplayS) : DisplayS :=
  if d.n_visual_rows = 0 then d
  else { d with selected_visual_idx := (d.selected_visual_idx + 1) % d.n_visual_rows }

/-- Display::prev_row: no-op on zero rows, else retreat modulo the row count. -/
def prev_row (d : DisplayS) : DisplayS :=
  if d.n_visual_rows = 0 then d
  else { d with selected_visual_idx :=
          (d.selected_visual_idx + d.n_visual_rows - 1) % d.n_visual_rows }

/-- The state update of Display::render lines 124-167: recount the visual
rows by wrapping every log line (parse abstracts the ANSI parse of a raw
log into styled lines of graphemes), then, when jump_to_latest is set,
force the selection to the last row and clear the flag. -/
def render_update (parse : String → List (List Grapheme)) (w : Nat)
    (d : DisplayS) : DisplayS :=
  let n := (d.logs.map (fun s => ((parse s).map
      (fun line => (wrapLine w line).length)).sum)).sum
  let d2 := { d with n_visual_rows := n }
  if d2.jump_to_latest then
    { d2 with selected_visual_idx := n - 1, jump_to_latest := false }
  else d2

/-! ## Log formatting (Watcher::format_log_msg, Watcher::log) -/

/-- Watcher::format_log_msg: wrap an engine message in the timestamp and
Unlimited Ammo banner (the escape codes color the banner green). -/
def format_log_msg (datetime msg : String) : String :=
  "[" ++ datetime ++ " \x1b[32mUnlimited Ammo\x1b[0m]: " ++ msg

/-- Watcher::log: format the engine message, then append it to the display. -/
def watcher_log (d : DisplayS) (datetime msg : String) : DisplayS :=
  add_log d (format_log_msg datetime msg)

/-- A line read from the primary build's stdout or stderr is appended raw
(try_build_codebase lines 204-216 and 225-237 call display.add_log(text)). -/
def append_child_line (d : DisplayS) (text : String) : DisplayS :=
  add_log d text

/-- Lines 172-178: the web build's captured stdout and stderr are forwarded
through Watcher::log (self.log of the two strings), hence formatted. -/
def forward_web_output (d : DisplayS) (datetime stdout_str stderr_str : String) :
    DisplayS :=
  watcher_log (watcher_log d datetime stdout_str) datetime stderr_str

/-! ## Builder (WatcherBuilder::build) -/

/-- The fields of WatcherBuilder; display and build process are modelled by
their presence alone. -/
structure WatcherBuilder where
  watch_interval : Option Nat
  ignore_list : Option (List String)
  display : Option Unit
  current_build_process : Option Unit

/-- The configuration a successful build produces. -/
structure WatcherConfig where
  watch_interval : Nat
  ignore_list : List String
deriving DecidableEq, Repr

/-- The outcome of WatcherBuilder::build: ok, a returned error, or a panic
from an unwrap on None. -/
inductive BuildResult where
  | ok (w : WatcherConfig)
  | err (e : Error)
  | panic
deriving DecidableEq, Repr

/-- WatcherBuilder::set_default_ignore_list's list. -/
def default_ignore_list : List String :=
  [".git", ".gitignore", "target", "README.md", "dist", "node_modules",
   "tsconfig.tsbuildinfo", "tsconfig.node.tsbuildinfo"]

/-- WatcherBuilder::build lines 354-376: error when the interval is unset,
substitute the default ignore list when unset, error when the display is
unset, then unwrap every field; current_build_process was never checked,
so its unwrap panics when it was never supplied. -/
def WatcherBuilder.build (b : WatcherBuilder) : BuildResult :=
  if b.watch_interval.isNone then .err .WatchIntervalNotSet
  else
    let b2 := if b.ignore_list.isNone then
        { b with ignore_list := some default_ignore_list } else b
    if b2.display.isNone then .err .DisplayNotSet
    else
      match b2.watch_interval, b2.ignore_list, b2.current_build_process with
      | some wi, some il, some _ => .ok { watch_interval := wi, ignore_list := il }
      | _, _, _ => .panic

/-! ## Helper lemmas -/

lemma next_row_iterate (d : DisplayS) (h : d.selected_visual_idx < d.n_visual_rows) :
    ∀ k, next_row^[k] d =
      { d with selected_visual_idx :=
          (d.selected_visual_idx + k) % d.n_visual_rows } := by
  have hn : d.n_visual_rows ≠ 0 := by omega
  intro k
  induction k with
  | zero =>
    simp only [Function.iterate_zero, id_eq, Nat.add_zero, Nat.mod_eq_of_lt h]
  | succ k ih =>
    rw [Function.iterate_succ_apply', ih]
    simp only [next_row, hn, if_false]
    have : (d.selected_visual_idx + k) % d.n_visual_rows + 1 =
        (d.selected_visual_idx + k) % d.n_visual_rows + 1 := rfl
    rw [show ((d.selected_visual_idx + k) % d.n_visual_rows + 1) % d.n_visual_rows
        = (d.selected_visual_idx + (k + 1)) % d.n_visual_rows from by
      rw [Nat.mod_add_mod, Nat.add_assoc]]

lemma prev_row_iterate (d : DisplayS) (h : d.selected_visual_idx < d.n_visual_rows) :
    ∀ k, prev_row^[k] d =
      { d with selected_visual_idx :=
          (d.selected_visual_idx + k * (d.n_visual_rows - 1)) % d.n_visual_rows } := by
  have hn : d.n_visual_rows ≠ 0 := by omega
  intro k
  induction k with
  | zero =>
    simp only [Function.iterate_zero, id_eq, Nat.zero_mul, Nat.add_zero,
      Nat.mod_eq_of_lt h]
  | succ k ih =>
    rw [Function.iterate_succ_apply', ih]
    simp only [prev_row, hn, if_false]
    rw [show (d.selected_visual_idx + k * (d.n_visual_rows - 1)) % d.n_visual_rows
          + d.n_visual_rows - 1
        = (d.selected_visual_idx + k * (d.n_visual_rows - 1)) % d.n_visual_rows
          + (d.n_visual_rows - 1) from by omega,
      Nat.mod_add_mod, Nat.succ_mul, ← Nat.add_assoc]

lemma rowWidth_nil : rowWidth [] = 0 := rfl

lemma rowWidth_single (g : Grapheme) : rowWidth [g] = g.width := by
  simp [rowWidth]

lemma rowWidth_append_single (cur : List Grapheme) (g : Grapheme) :
    rowWidth (cur ++ [g]) = rowWidth cur + g.width := by
  simp [rowWidth]

lemma wrapAux_flatten (w : Nat) :
    ∀ (gs cur : List Grapheme) (curW : Nat),
      (wrapAux w cur curW gs).flatten = cur ++ gs := by
  intro gs
  induction gs with
  | nil =>
    intro cur curW
    by_cases h : cur.isEmpty
    · rw [List.isEmpty_iff] at h
      subst h
      simp [wrapAux]
    · simp [wrapAux, h]
  | cons g gs ih =>
    intro cur curW
    by_cases hcond : w < curW + g.width ∧ 0 < curW
    · simp [wrapAux, hcond, ih]
    · simp [wrapAux, hcond, ih]

lemma wrapAux_width_le (w : Nat) :
    ∀ (gs cur : List Grapheme) (curW : Nat),
      (∀ g ∈ gs, g.width ≤ w) → curW = rowWidth cur → curW ≤ w →
      ∀ r ∈ wrapAux w cur curW gs, rowWidth r ≤ w := by
  intro gs
  induction gs with
  | nil =>
    intro cur curW _ hcw hle r hr
    by_cases h : cur.isEmpty
    · simp [wrapAux, h] at hr
    · simp [wrapAux, h] at hr
      subst hr
      omega
  | cons g gs ih =>
    intro cur curW hgs hcw hle r hr
    have hgw : g.width ≤ w := hgs g (List.mem_cons_self g gs)
    have hgs' : ∀ g' ∈ gs, g'.width ≤ w := fun g' hg' =>
      hgs g' (List.mem_cons_of_mem g hg')
    by_cases hcond : w < curW + g.width ∧ 0 < curW
    · rw [wrapAux, if_pos hcond] at hr
      rcases List.mem_cons.mp hr with hr | hr
      · subst hr; omega
      · exact ih [g] g.width hgs' (rowWidth_single g).symm hgw r hr
    · rw [wrapAux, if_neg hcond] at hr
      have hle' : curW + g.width ≤ w := by
        rcases Decidable.not_and_iff_or_not.mp hcond with h | h
        · omega
        · have hc0 : curW = 0 := by omega
          omega
      exact ih (cur ++ [g]) (curW + g.width) hgs'
        (by rw [rowWidth_append_single, hcw]) hle' r hr

lemma wrapAux_ones_length (w : Nat) (hw : 1 ≤ w) :
    ∀ (gs : List Grapheme), (∀ g ∈ gs, g.width = 1) →
    ∀ (cur : List Grapheme) (c : Nat), cur ≠ [] → 1 ≤ c → c ≤ w →
      (wrapAux w cur c gs).length = (c + gs.length + w - 1) / w := by
  intro gs
  induction gs with
  | nil =>
    intro _ cur c hcur h1 h2
    have hne : ¬ cur.isEmpty := by
      simpa [List.isEmpty_iff] using hcur
    rw [wrapAux, if_neg hne]
    simp only [List.length_singleton, List.length_nil, Nat.add_zero]
    exact (Nat.div_eq_of_lt_le (k := 1) (n := w) (m := c + w - 1)
      (by omega) (by omega)).symm
  | cons g gs ih =>
    intro hgs cur c hcur h1 h2
    have hg : g.width = 1 := hgs g (List.mem_cons_self g gs)
    have hgs' : ∀ g' ∈ gs, g'.width = 1 := fun g' hg' =>
      hgs g' (List.mem_cons_of_mem g hg')
    by_cases hcw : c = w
    · have hcond : w < c + g.width ∧ 0 < c := by omega
      rw [wrapAux, if_pos hcond, hg]
      simp only [List.length_cons]
      rw [ih hgs' [g] 1 (by simp) (by omega) (by omega), hcw]
      have e1 : 1 + gs.length + w - 1 = gs.length + w := by omega
      have e2 : w + (gs.length + 1) + w - 1 = gs.length + w + w := by omega
      have d2 : (gs.length + w + w) / w = (gs.length + w) / w + 1 :=
        Nat.add_div_right _ (by omega)
      rw [e1, e2, d2]
    · have hcond : ¬ (w < c + g.width ∧ 0 < c) := by omega
      rw [wrapAux, if_neg hcond, hg]
      rw [ih hgs' (cur ++ [g]) (c + 1) (by simp) (by omega) (by omega)]
      simp only [List.length_cons]
      congr 1
      omega

/-- Is an Except value an Ok (walk succeeded)? -/
def isOkE {α : Type} : Except Error α → Bool
  | .ok _ => true
  | .error _ => false

mutual
/-- walkNode succeeds exactly when no fatal failure is reachable in the node. -/
theorem walkNode_isOk_aux (ig : List String) :
    (n : FsNode) → ∀ tg : List (String × Nat),
      isOkE (walkNode ig n tg) = !nodeFatal ig n
  | .file _, _ => by simp [walkNode, nodeFatal, isOkE]
  | .dirErr _, _ => by simp [walkNode, nodeFatal, isOkE]
  | .dirOk _ es, tg => by
    rw [walkNode, nodeFatal]
    exact walkEntries_isOk_aux ig es tg

/-- walkEntries succeeds exactly when no fatal failure is reachable in the
remaining entries. -/
theorem walkEntries_isOk_aux (ig : List String) :
    (es : FsEntries) → ∀ tg : List (String × Nat),
      isOkE (walkEntries ig es tg) = !entriesFatal ig es
  | .nil, _ => by simp [walkEntries, entriesFatal, isOkE]
  | .consErr rest, tg => by
    rw [walkEntries, entriesFatal]
    exact walkEntries_isOk_aux ig rest tg
  | .consOk name pathStr node rest, tg => by
    cases name with
    | error u => simp [walkEntries, entriesFatal, isOkE]
    | ok filename =>
      rw [walkEntries, entriesFatal]
      by_cases hv : is_valid_target ig filename
      · simp only [hv, if_true]
        by_cases hdir : node.isDir ∧ pathStr.isSome
        · simp only [hdir, if_true]
          cases hwn : walkNode ig node tg with
          | error e =>
            have hfat := walkNode_isOk_aux ig node tg
            rw [hwn] at hfat
            simp only [isOkE] at hfat
            have : nodeFatal ig node = true := by
              cases h : nodeFatal ig node
              · rw [h] at hfat; simp at hfat
              · rfl
            simp [this, isOkE]
          | ok tg2 =>
            have hfat := walkNode_isOk_aux ig node tg
            rw [hwn] at hfat
            simp only [isOkE] at hfat
            have hnf : nodeFatal ig node = false := by
              cases h : nodeFatal ig node
              · rfl
              · rw [h] at hfat; simp at hfat
            rw [hnf]
            simp only [Bool.false_or]
            exact walkEntries_isOk_aux ig rest tg2
        · simp only [hdir, if_false]
          cases hm : node.modifiedTS with
          | error u => simp [isOkE]
          | ok ts =>
            cases pathStr with
            | some p => exact walkEntries_isOk_aux ig rest (insertTS tg p ts)
            | none => exact walkEntries_isOk_aux ig rest tg
      · simp only [hv, if_false]
        exact walkEntries_isOk_aux ig rest tg
end

/-! ## Claim theorems -/

/-- C1 counterexample: with an empty previous snapshot, a freshly created
file present in the new snapshot is not detected as changed and the build
lifecycle is never invoked for it, even though every invocation would
succeed. -/
theorem new_path_ignored_cex :
    detectsChange [] "./src/main.rs" 5 = false ∧
    scanTargetsLoop [] (fun _ => true) [("./src/main.rs", 5)] = [] := by
  constructor <;> rfl

/-- C1 (amended): a path absent from the previous snapshot is NOT treated as
changed; the diff detects a change exactly when the previous snapshot holds
the path with a different timestamp. -/
theorem detectsChange_requires_prior_entry (prev : List (String × Nat))
    (t : String) (ts : Nat) :
    (lookupTS prev t = none → detectsChange prev t ts = false) ∧
    (detectsChange prev t ts = true ↔
      ∃ old, lookupTS prev t = some old ∧ old ≠ ts) := by
  unfold detectsChange
  cases h : lookupTS prev t with
  | none => simp
  | some old => simp [decide_eq_true_iff]

/-- C1 witness: the amended theorem evaluated on the empty snapshot. -/
theorem detectsChange_requires_prior_entry_witness :
    detectsChange [] "a.rs" 0 = false :=
  (detectsChange_requires_prior_entry [] "a.rs" 0).1 rfl

/-- C2 counterexample: two paths differ in the same tick and the build
invocation fails on each, so the build lifecycle is invoked twice in one
tick (Err from try_build_codebase continues the targets loop). -/
theorem scan_two_invocations_cex :
    scanTargetsLoop [("a", 0), ("b", 0)] (fun _ => false) [("a", 1), ("b", 1)]
      = ["a", "b"] := by
  rfl

/-- C2 (amended): per tick at most one build invocation succeeds, and a
successful invocation is always the last one of the tick (the loop breaks
on Ok and continues on Err). -/
theorem scan_at_most_one_success (prev : List (String × Nat))
    (buildOk : String → Bool) (curr : List (String × Nat)) :
    (scanTargetsLoop prev buildOk curr).filter (fun t => buildOk t) = [] ∨
    ∃ t, buildOk t = true ∧
      (scanTargetsLoop prev buildOk curr).filter (fun t => buildOk t) = [t] ∧
      (scanTargetsLoop prev buildOk curr).getLast? = some t := by
  induction curr with
  | nil => left; rfl
  | cons p rest ih =>
    obtain ⟨t, ts⟩ := p
    by_cases hd : detectsChange prev t ts
    · by_cases hb : buildOk t
      · right
        refine ⟨t, hb, ?_, ?_⟩ <;> simp [scanTargetsLoop, hd, hb]
      · rcases ih with hnil | ⟨u, hu, hf, hl⟩
        · left
          simp [scanTargetsLoop, hd, hb, hnil]
        · right
          refine ⟨u, hu, ?_, ?_⟩
          · simp [scanTargetsLoop, hd, hb, hf]
          · rcases hs : scanTargetsLoop prev buildOk rest with _ | ⟨b, l⟩
            · rw [hs] at hl
              exact Option.noConfusion hl
            · rw [hs] at hl
              have hstep : scanTargetsLoop prev buildOk ((t, ts) :: rest)
                  = t :: b :: l := by
                simp [scanTargetsLoop, hd, hb, hs]
              rw [hstep, List.getLast?_cons_cons]
              exact hl
    · rcases ih with hnil | ⟨u, hu, hf, hl⟩
      · left; simp [scanTargetsLoop, hd, hnil]
      · right; exact ⟨u, hu, by simp [scanTargetsLoop, hd, hf],
          by simp [scanTargetsLoop, hd, hl]⟩

/-- C3: a call to try_build_codebase always attempts to terminate a
still-recorded previous process first; if that termination fails, the io
error is propagated, the attempt aborts, and the stale handle remains
recorded; a successful call records exactly the newly spawned process (the
recorded handle is an Option, so at most one process is current at any
instant by construction). -/
theorem try_build_kill_discipline (env : BuildEnv) (wb : Bool) (st : Option Nat) :
    (∀ pid, st = some pid → (try_build_codebase env wb st).killAttempted = true) ∧
    (∀ pid, st = some pid → env.killOk pid = false →
      (try_build_codebase env wb st).result = .error .StdIo ∧
      (try_build_codebase env wb st).finalProcess = some pid) ∧
    ((try_build_codebase env wb st).result = .ok () →
      (try_build_codebase env wb st).finalProcess = env.rustSpawn) := by
  refine ⟨?_, ?_, ?_⟩
  · intro pid hst
    subst hst
    by_cases hk : env.killOk pid <;>
      [skip; simp [try_build_codebase, hk]]
    cases hw : env.rustSpawn <;> cases wb <;>
      cases hws : env.webSpawnOk <;> cases hww : env.webWaitOk <;>
      simp [try_build_codebase, afterKillStage, rustStage, hk, hw, hws, hww]
  · intro pid hst hk
    subst hst
    simp [try_build_codebase, hk]
  · intro hres
    rcases st with _ | pid <;>
      [skip; by_cases hk : env.killOk pid] <;>
      cases hw : env.rustSpawn <;> cases wb <;>
      cases hws : env.webSpawnOk <;> cases hww : env.webWaitOk <;>
      simp_all [try_build_codebase, afterKillStage, rustStage]

/-- C3 witness: a recorded process whose kill fails makes the build attempt
abort with an io error while the stale handle stays recorded. -/
theorem try_build_kill_discipline_witness :
    (try_build_codebase ⟨fun _ => false, true, true, some 7⟩ false (some 3)).result
        = .error .StdIo ∧
    (try_build_codebase ⟨fun _ => false, true, true, some 7⟩ false (some 3)).finalProcess
        = some 3 :=
  (try_build_kill_discipline ⟨fun _ => false, true, true, some 7⟩ false (some 3)).2.1
    3 rfl rfl

/-- C4 counterexample: a directory whose read_dir iterator yields one Err
entry followed by a valid file: the entry-level failure is silently skipped
and a best-effort snapshot containing the remaining file is returned
instead of an error. -/
theorem entry_failure_skipped_cex :
    walkNode []
      (.dirOk (.ok 0) (.consErr (.consOk (.ok "main.rs") (some "./main.rs")
        (.file (.ok 5)) .nil))) []
      = .ok [("./main.rs", 5)] := by
  simp [walkNode, walkEntries, is_valid_target, FsNode.isDir,
    FsNode.modifiedTS, insertTS]

/-- C4 (amended): a directory-read, metadata, or filename-decode failure on
the traversed portion aborts the whole snapshot with an error (and on an
error no mapping at all is produced), but a failure of the read_dir
iterator to yield an entry is logged and that entry skipped, not fatal:
the walk succeeds exactly when none of the aborting failures is reached. -/
theorem snapshot_all_or_nothing (ig : List String) (root : FsNode)
    (tg : List (String × Nat)) :
    isOkE (walkNode ig root tg) = !nodeFatal ig root :=
  walkNode_isOk_aux ig root tg

/-- C5: for available width w at least 1 and a line of k grapheme clusters
each of rendered width 1, the wrap produces exactly ceil(k / w) visual
rows, none of rendered width exceeding w. -/
theorem wrap_ones_correct (w : Nat) (hw : 1 ≤ w) (gs : List Grapheme)
    (hone : ∀ g ∈ gs, g.width = 1) :
    (wrapLine w gs).length = (gs.length + w - 1) / w ∧
    ∀ r ∈ wrapLine w gs, rowWidth r ≤ w := by
  constructor
  · rw [wrapLine]
    cases gs with
    | nil =>
      rw [wrapAux]
      simp only [List.isEmpty_nil, if_true, List.length_nil, Nat.zero_add]
      exact (Nat.div_eq_of_lt (by omega)).symm
    | cons g gs' =>
      have hg : g.width = 1 := hone g (List.mem_cons_self _ _)
      have hone' : ∀ g' ∈ gs', g'.width = 1 := fun g' h =>
        hone g' (List.mem_cons_of_mem _ h)
      have hcond : ¬ (w < 0 + g.width ∧ (0 : Nat) < 0) := by omega
      rw [wrapAux, if_neg hcond, hg,
        wrapAux_ones_length w hw gs' hone' ([] ++ [g]) (0 + 1)
          (by simp) (by omega) (by omega)]
      simp only [List.length_cons]
      congr 1
      omega
  · intro r hr
    have h' : ∀ g ∈ gs, g.width ≤ w := fun g hgm => by
      rw [hone g hgm]; exact hw
    rw [wrapLine] at hr
    exact wrapAux_width_le w gs [] 0 h' rfl (by omega) r hr

/-- C5 witness: three width-1 clusters at available width 2 wrap into
ceil(3/2) = 2 rows of width at most 2. -/
theorem wrap_ones_correct_witness :
    (wrapLine 2 [⟨"a", 1⟩, ⟨"b", 1⟩, ⟨"c", 1⟩]).length
      = (([⟨"a", 1⟩, ⟨"b", 1⟩, ⟨"c", 1⟩] : List Grapheme).length + 2 - 1) / 2 ∧
    ∀ r ∈ wrapLine 2 [⟨"a", 1⟩, ⟨"b", 1⟩, ⟨"c", 1⟩], rowWidth r ≤ 2 :=
  wrap_ones_correct 2 (by decide) [⟨"a", 1⟩, ⟨"b", 1⟩, ⟨"c", 1⟩] (by decide)

/-- C6 counterexample: a single grapheme of rendered width 2 at available
width 1 is emitted as a visual row of rendered width 2, exceeding the
viewport width. -/
theorem wide_grapheme_overflow_cex :
    wrapLine 1 [⟨"世", 2⟩] = [[⟨"世", 2⟩]] ∧
    rowWidth [⟨"世", 2⟩] = 2 ∧ ¬ (rowWidth [⟨"世", 2⟩] ≤ 1) :=
  ⟨rfl, rfl, by decide⟩

/-- C6 (amended): no grapheme cluster is ever split or lost across rows
(the rows flatten back to the original line), and provided every cluster's
rendered width is at most the available width, no visual row's rendered
width exceeds it. -/
theorem wrap_no_split_and_width (w : Nat) (gs : List Grapheme) :
    (wrapLine w gs).flatten = gs ∧
    ((∀ g ∈ gs, g.width ≤ w) → ∀ r ∈ wrapLine w gs, rowWidth r ≤ w) := by
  constructor
  · rw [wrapLine, wrapAux_flatten]
    rfl
  · intro hgs r hr
    rw [wrapLine] at hr
    exact wrapAux_width_le w gs [] 0 hgs rfl (by omega) r hr

/-- C6 witness: a line with a width-2 cluster among width-1 clusters at
available width 2 flattens back unchanged and all rows fit. -/
theorem wrap_no_split_and_width_witness :
    (wrapLine 2 [⟨"a", 1⟩, ⟨"世", 2⟩, ⟨"b", 1⟩]).flatten
        = [⟨"a", 1⟩, ⟨"世", 2⟩, ⟨"b", 1⟩] ∧
    ∀ r ∈ wrapLine 2 [⟨"a", 1⟩, ⟨"世", 2⟩, ⟨"b", 1⟩], rowWidth r ≤ 2 :=
  ⟨(wrap_no_split_and_width 2 [⟨"a", 1⟩, ⟨"世", 2⟩, ⟨"b", 1⟩]).1,
   (wrap_no_split_and_width 2 [⟨"a", 1⟩, ⟨"世", 2⟩, ⟨"b", 1⟩]).2 (by decide)⟩

/-- C7: next_row and prev_row are no-ops on zero rows; on a positive row
count they keep the selection in range, and from any in-range selection
applying next_row (resp. prev_row) once per row returns to the start. -/
theorem selection_wraparound (d : DisplayS) :
    (d.n_visual_rows = 0 → next_row d = d ∧ prev_row d = d) ∧
    (0 < d.n_visual_rows →
      (next_row d).selected_visual_idx < d.n_visual_rows ∧
      (prev_row d).selected_visual_idx < d.n_visual_rows) ∧
    (d.selected_visual_idx < d.n_visual_rows →
      next_row^[d.n_visual_rows] d = d ∧ prev_row^[d.n_visual_rows] d = d) := by
  refine ⟨?_, ?_, ?_⟩
  · intro h0
    constructor <;> simp [next_row, prev_row, h0]
  · intro hpos
    have hn : d.n_visual_rows ≠ 0 := by omega
    constructor <;> simp [next_row, prev_row, hn] <;>
      exact Nat.mod_lt _ hpos
  · intro h
    constructor
    · rw [next_row_iterate d h d.n_visual_rows, Nat.add_mod_right,
        Nat.mod_eq_of_lt h]
    · rw [prev_row_iterate d h d.n_visual_rows, Nat.mul_comm,
        Nat.add_mul_mod_self_right, Nat.mod_eq_of_lt h]

/-- C7 witness: with three rows, three next steps and three prev steps each
return to the starting selection. -/
theorem selection_wraparound_witness :
    next_row^[3] (⟨[], 1, 3, false⟩ : DisplayS) = ⟨[], 1, 3, false⟩ ∧
    prev_row^[3] (⟨[], 1, 3, false⟩ : DisplayS) = ⟨[], 1, 3, false⟩ :=
  (selection_wraparound ⟨[], 1, 3, false⟩).2.2 (by decide)

/-- C8: add_log always succeeds, appends the line, and sets jump_to_latest;
the next render with the flag set forces the selection to the last visual
row and clears the flag. -/
theorem add_log_then_render_jump (parse : String → List (List Grapheme))
    (w : Nat) (d : DisplayS) (s : String) :
    (add_log d s).jump_to_latest = true ∧
    (add_log d s).logs = d.logs ++ [s] ∧
    (render_update parse w (add_log d s)).jump_to_latest = false ∧
    (render_update parse w (add_log d s)).selected_visual_idx =
      (render_update parse w (add_log d s)).n_visual_rows - 1 := by
  refine ⟨rfl, rfl, ?_, ?_⟩ <;> simp [render_update, add_log]

/-- C9 counterexample: the secondary (web) build's captured output is
forwarded through Watcher::log and therefore IS given the timestamp+banner
prefix, unlike what the claim states. -/
theorem web_output_prefixed_cex :
    (forward_web_output ⟨[], 0, 0, false⟩ "T" "webout" "weberr").logs =
      ["[T \x1b[32mUnlimited Ammo\x1b[0m]: webout",
       "[T \x1b[32mUnlimited Ammo\x1b[0m]: weberr"] ∧
    "[T \x1b[32mUnlimited Ammo\x1b[0m]: webout" ≠ "webout" := by
  refine ⟨rfl, ?_⟩
  decide

/-- C9 (amended): lines from the primary build's stdout/stderr are appended
raw, engine status lines are appended with the timestamp+banner prefix, and
the web build's captured output is forwarded through the engine logger and
is therefore prefixed as well. -/
theorem log_prefix_discipline (d : DisplayS) (dt text msg o e : String) :
    (append_child_line d text).logs = d.logs ++ [text] ∧
    (watcher_log d dt msg).logs = d.logs ++ [format_log_msg dt msg] ∧
    (forward_web_output d dt o e).logs =
      d.logs ++ [format_log_msg dt o, format_log_msg dt e] := by
  refine ⟨rfl, rfl, ?_⟩
  simp [forward_web_output, watcher_log, add_log]

/-- C10: WatcherBuilder::build errors when the interval or the display is
unset, substitutes the default ignore list when none is set, and panics
(unwrap on None) when the build-process handle was never supplied. -/
theorem watcher_builder_build_spec (b : WatcherBuilder) :
    (b.watch_interval = none → b.build = .err .WatchIntervalNotSet) ∧
    (b.watch_interval.isSome = true → b.display = none →
      b.build = .err .DisplayNotSet) ∧
    (b.watch_interval.isSome = true → b.display.isSome = true →
      b.current_build_process = none → b.build = .panic) ∧
    (∀ wi, b.watch_interval = some wi → b.display.isSome = true →
      b.ignore_list = none → b.current_build_process.isSome = true →
      b.build = .ok ⟨wi, default_ignore_list⟩) ∧
    (∀ wi il, b.watch_interval = some wi → b.display.isSome = true →
      b.ignore_list = some il → b.current_build_process.isSome = true →
      b.build = .ok ⟨wi, il⟩) := by
  obtain ⟨wi, il, di, cbp⟩ := b
  cases wi <;> cases il <;> cases di <;> cases cbp <;>
    simp [WatcherBuilder.build]

/-- C10 witness: interval and display supplied, build process never
supplied: build panics instead of returning an error. -/
theorem watcher_builder_build_spec_witness :
    WatcherBuilder.build ⟨some 2, none, some (), none⟩ = .panic :=
  (watcher_builder_build_spec ⟨some 2, none, some (), none⟩).2.2.1 rfl rfl rfl

end UnlimitedAmmo
